import Mathlib

/-!
# Verification of the `Mixer-SNN` training script

A shallow embedding of `src/train_snn_mixer.py` (class `Trainer`), the single
source file of the repository.  Hyperparameters carried by the `argparse`
namespace become the structure `Args`; mutable training-loop state becomes
explicit state passing; the points where the script touches the outside world
(checkpoint writes, scheduler steps, model passes) become events in explicit
traces.  Python float values are embedded as rationals (every float is a
rational), except for the learning-rate schedule where the cosine forces
real-valued reasoning.

The helper module `utils` imported by the script is not part of `src/`; the
few facts needed from it (`is_main_process`, `save_on_master`, `MetricLogger`,
`reduce_across_processes`) are modelled from the spec where indicated.
-/

/-- The hyperparameters of a run, mirroring `Trainer.get_args_parser`
(src/train_snn_mixer.py lines 392-424).  Float-valued flags are embedded as
rationals; `resume` and `clip_grad_norm` default to `None` and so are
`Option`s. -/
structure Args where
  data_path : String
  model : String
  T : Nat
  cupy : Bool
  device : String
  batch_size : Nat
  epochs : Nat
  workers : Nat
  opt : String
  lr : ℚ
  momentum : ℚ
  weight_decay : ℚ
  lr_scheduler : String
  lr_warmup_epochs : Nat
  lr_warmup_method : String
  lr_warmup_decay : ℚ
  lr_step_size : Nat
  lr_gamma : ℚ
  output_dir : String
  resume : Option String
  start_epoch : Nat
  seed : Nat
  amp : Bool
  clip_grad_norm : Option ℚ
  sync_bn : Bool
deriving DecidableEq

/-- The parser defaults from `Trainer.get_args_parser`, used as a concrete
configuration in witnesses. -/
def defaultArgs : Args where
  data_path := "./data"
  model := "mixer"
  T := 4
  cupy := false
  device := "cuda"
  batch_size := 32
  epochs := 90
  workers := 16
  opt := "sgd"
  lr := 1/10
  momentum := 9/10
  weight_decay := 0
  lr_scheduler := "cosa"
  lr_warmup_epochs := 10
  lr_warmup_method := "linear"
  lr_warmup_decay := 1/100
  lr_step_size := 30
  lr_gamma := 1/10
  output_dir := "./logs"
  resume := none
  start_epoch := 0
  seed := 42
  amp := false
  clip_grad_norm := none
  sync_bn := false

/-- Source `Trainer.get_logdir_name` (lines 346-349): the run-directory name is the
f-string over model, batch_size, epochs, opt, lr, weight_decay and seed. -/
def get_logdir_name (args : Args) : String :=
  args.model ++ "_b" ++ toString args.batch_size ++ "_e" ++ toString args.epochs
    ++ "_" ++ args.opt ++ "_lr" ++ toString args.lr
    ++ "_wd" ++ toString args.weight_decay ++ "_seed" ++ toString args.seed

/-- Checkpoint directory `os.path.join(args.output_dir, log_dir, "pt")` (line 100). -/
def pt_dir (args : Args) : String :=
  args.output_dir ++ "/" ++ get_logdir_name args ++ "/pt"

/-- TensorBoard directory `os.path.join(args.output_dir, log_dir, "tb")` (line 101). -/
def tb_dir (args : Args) : String :=
  args.output_dir ++ "/" ++ get_logdir_name args ++ "/tb"

/-- Path of the periodically overwritten checkpoint (lines 111 and 164). -/
def latest_checkpoint_path (args : Args) : String :=
  pt_dir args ++ "/" ++ "checkpoint_latest.pth"

/-- Path of the best-accuracy checkpoint (line 166). -/
def best_checkpoint_path (args : Args) : String :=
  pt_dir args ++ "/" ++ "checkpoint_max_test_acc1.pth"

/-- Python's `range(a, b)` as traversed by `for epoch in range(...)`:
the naturals `a, a+1, ..., b-1`, empty when `b ≤ a`. -/
def pyRange (a b : Nat) : List Nat :=
  List.range' a (b - a)

/-- The list of epoch indices the loop at line 131 runs:
`for epoch in range(args.start_epoch, args.epochs)`. -/
def epochsRun (args : Args) : List Nat :=
  pyRange args.start_epoch args.epochs

/-- Python's `str.lower()` as used on the ASCII option names, mapped
per character (`String.toLower` itself does not reduce in the kernel). -/
def pyLower (s : String) : String :=
  String.mk (s.data.map Char.toLower)

/-- The optimizer objects `Trainer.set_optimizer` can build. -/
inductive Optim where
  | sgd (lr momentum weight_decay : ℚ)
  | adamw (lr weight_decay : ℚ)
deriving DecidableEq

/-- Source `Trainer.set_optimizer` (lines 282-299): lower-cases `args.opt`, builds
SGD or AdamW, and raises `NotImplementedError` on anything else. -/
def set_optimizer (args : Args) : Except String Optim :=
  let opt_name := pyLower args.opt
  if opt_name = "sgd" then
    Except.ok (Optim.sgd args.lr args.momentum args.weight_decay)
  else if opt_name = "adamw" then
    Except.ok (Optim.adamw args.lr args.weight_decay)
  else
    Except.error "NotImplementedError: Not supported optimizer"

/-- The warmup schedulers `Trainer.set_lr_scheduler` can build. -/
inductive WarmupSched where
  | linear (start_factor : ℚ) (total_iters : Nat)
  | const (factor : ℚ) (total_iters : Nat)
deriving DecidableEq

/-- The scheduler objects `Trainer.set_lr_scheduler` can build. -/
inductive Sched where
  | stepLR (step_size : Nat) (gamma : ℚ)
  | cosineAnnealingLR (T_max : Nat)
  | exponentialLR (gamma : ℚ)
  | sequentialLR (warmup : WarmupSched) (milestone : Nat) (main : Sched)
deriving DecidableEq

/-- Source `Trainer.set_lr_scheduler` (lines 301-344): lower-cases
`args.lr_scheduler` to pick the main scheduler (`step`, `cosa` with
`T_max = epochs - lr_warmup_epochs`, or `exp`), raising on anything else;
then, when `lr_warmup_epochs > 0`, picks the warmup scheduler by comparing
`args.lr_warmup_method` (not lower-cased in the source) against `linear`
and `constant`, raising on anything else, and chains the two with
`SequentialLR` at milestone `lr_warmup_epochs`. -/
def set_lr_scheduler (args : Args) : Except String Sched := do
  let ls := pyLower args.lr_scheduler
  let main_lr_scheduler ←
    if ls = "step" then
      Except.ok (Sched.stepLR args.lr_step_size args.lr_gamma)
    else if ls = "cosa" then
      Except.ok (Sched.cosineAnnealingLR (args.epochs - args.lr_warmup_epochs))
    else if ls = "exp" then
      Except.ok (Sched.exponentialLR args.lr_gamma)
    else
      Except.error "NotImplementedError: Not supported lr_scheduler"
  if args.lr_warmup_epochs > 0 then
    let warmup_lr_scheduler ←
      if args.lr_warmup_method = "linear" then
        Except.ok (WarmupSched.linear args.lr_warmup_decay args.lr_warmup_epochs)
      else if args.lr_warmup_method = "constant" then
        Except.ok (WarmupSched.const args.lr_warmup_decay args.lr_warmup_epochs)
      else
        Except.error "NotImplementedError: Not supported lr_warmup_method"
    pure (Sched.sequentialLR warmup_lr_scheduler args.lr_warmup_epochs main_lr_scheduler)
  else
    pure main_lr_scheduler

/-- The checkpoint dictionary assembled at lines 154-163.  The serialized
`state_dict()` blobs of model, optimizer and scheduler are abstracted as
natural-number tags; `scaler` is an `Option` because the source adds the
`"scaler"` key only when a gradient scaler exists (`if scaler:` at line 162),
i.e. only when `args.amp` was given.  (The dictionary also stores the `args`
namespace itself, which no claim concerns.) -/
structure Checkpoint where
  model : Nat
  optimizer : Nat
  lr_scheduler : Nat
  epoch : Nat
  max_test_acc1 : ℚ
  scaler : Option Nat
deriving DecidableEq

/-- The mutable per-process state that loading a checkpoint touches:
the three `load_state_dict` targets, the optional scaler, and the
`max_test_acc1` bookkeeping variable initialised to `-1.` at line 108. -/
structure ProcState where
  modelState : Nat
  optState : Nat
  schedState : Nat
  scalerState : Option Nat
  max_test_acc1 : ℚ
deriving DecidableEq

/-- The resume block, lines 109-122, run only when `args.resume is not None`:
restore model, optimizer and scheduler state, set
`args.start_epoch` to the stored epoch plus one, restore the scaler state only
when a scaler exists (`if scaler:`, i.e. `args.amp`), and restore
`max_test_acc1` only when `utils.is_main_process()`.  `is_main` abstracts
`utils.is_main_process()` (modelled from the spec: true exactly on the
coordinating process). -/
def resumeLoad (is_main : Bool) (args : Args) (st : ProcState) (ck : Checkpoint) :
    Args × ProcState :=
  ({ args with start_epoch := ck.epoch + 1 },
   { modelState := ck.model
     optState := ck.optimizer
     schedState := ck.lr_scheduler
     scalerState := if args.amp then ck.scaler else st.scalerState
     max_test_acc1 := if is_main then ck.max_test_acc1 else st.max_test_acc1 })

/-- Lines 108-122 as a whole: starting from `max_test_acc1 = -1.` the resume
block runs exactly when `args.resume` is not `None`. -/
def afterResume (is_main : Bool) (args : Args) (st : ProcState) (ck : Checkpoint) :
    Args × ProcState :=
  match args.resume with
  | none => (args, st)
  | some _ => resumeLoad is_main args st ck

/-- The abstract environment feeding one run of the epoch loop: the
`state_dict()` snapshot each component would serialize after completing a
given epoch, and the test top-1 accuracy `evaluate` returns for each epoch.
These stand for values the ML framework produces, which the orchestration
code only moves around. -/
structure EnvStates where
  modelSD : Nat → Nat
  optimSD : Nat → Nat
  schedSD : Nat → Nat
  scalerSD : Nat → Nat
  testAcc1 : Nat → ℚ

/-- The checkpoint dictionary built at lines 154-163 at the end of epoch
`epoch`, after `max_test_acc1` has been updated to `maxAcc`: the `"scaler"`
entry is present exactly when a scaler exists, i.e. when `amp` is set. -/
def mkCheckpoint (amp : Bool) (env : EnvStates) (epoch : Nat) (maxAcc : ℚ) :
    Checkpoint where
  model := env.modelSD epoch
  optimizer := env.optimSD epoch
  lr_scheduler := env.schedSD epoch
  epoch := epoch
  max_test_acc1 := maxAcc
  scaler := if amp then some (env.scalerSD epoch) else none

/-- Epoch-level events of the main loop (lines 131-169), in program order:
the training pass, the scheduler step, the evaluation pass, and the two
possible checkpoint writes (`utils.save_on_master`, modelled from the spec as
a write performed by the coordinating process). -/
inductive EpochEvent where
  | trainPass (epoch : Nat)
  | schedStep (epoch : Nat)
  | evalPass (epoch : Nat)
  | saveLatest (ck : Checkpoint)
  | saveBest (ck : Checkpoint)
deriving DecidableEq

/-- The checkpoint an event writes, if any. -/
def savedCk : EpochEvent → Option Checkpoint
  | EpochEvent.saveLatest ck => some ck
  | EpochEvent.saveBest ck => some ck
  | _ => none

/-- The body of one iteration of the loop at lines 131-169, for epoch
`epoch` with current best accuracy `maxAcc`: train (line 136), step the
scheduler (line 142), evaluate (line 143), and then, only on the main
process (line 149), update `max_test_acc1` when strictly improved
(lines 150-153), write the latest checkpoint (line 164) and, when improved,
also the best checkpoint (lines 165-166).  Returns the new `max_test_acc1`
and the events in program order. -/
def epochBody (is_main amp : Bool) (env : EnvStates) (epoch : Nat) (maxAcc : ℚ) :
    ℚ × List EpochEvent :=
  let base := [EpochEvent.trainPass epoch, EpochEvent.schedStep epoch,
               EpochEvent.evalPass epoch]
  if is_main then
    let acc := env.testAcc1 epoch
    let improved := maxAcc < acc
    let newMax := if maxAcc < acc then acc else maxAcc
    let ck := mkCheckpoint amp env epoch newMax
    (newMax, base ++ [EpochEvent.saveLatest ck]
               ++ (if improved then [EpochEvent.saveBest ck] else []))
  else
    (maxAcc, base)

/-- Runs `n` successive iterations of the epoch loop starting at epoch `start`
with best accuracy `m`, collecting the trace. -/
def runFrom (is_main amp : Bool) (env : EnvStates) :
    Nat → Nat → ℚ → ℚ × List EpochEvent
  | _, 0, m => (m, [])
  | start, n + 1, m =>
      let step := epochBody is_main amp env start m
      let rest := runFrom is_main amp env (start + 1) n step.1
      (rest.1, step.2 ++ rest.2)

/-- The whole loop `for epoch in range(args.start_epoch, args.epochs)`
(line 131) starting from best accuracy `m₀` (which is `-1.` unless a resume
restored it on the main process). -/
def mainLoop (is_main : Bool) (env : EnvStates) (args : Args) (m₀ : ℚ) :
    ℚ × List EpochEvent :=
  runFrom is_main args.amp env args.start_epoch (args.epochs - args.start_epoch) m₀

/-- The setup portion of `Trainer.main` that can reject a configuration:
`set_optimizer` is called at line 85 and `set_lr_scheduler` at line 92,
both before the epoch loop; a `NotImplementedError` from either aborts the
run. -/
def setupOptAndSched (args : Args) : Except String (Optim × Sched) := do
  let optimizer ← set_optimizer args
  let lr_sched ← set_lr_scheduler args
  pure (optimizer, lr_sched)

/-- Source `Trainer.main` reduced to the parts the claims concern: validate the
configuration (lines 85 and 92), then run the epoch loop (line 131).  A
setup error propagates and no epoch event is ever produced. -/
def mainRun (is_main : Bool) (env : EnvStates) (args : Args) (m₀ : ℚ) :
    Except String (ℚ × List EpochEvent) := do
  let _ ← setupOptAndSched args
  pure (mainLoop is_main env args m₀)

/-- Modelled from the documented closed form of
`torch.optim.lr_scheduler.LinearLR` / `ConstantLR`, the two warmup wrappers
the script can request: the factor multiplying the base learning rate after
`t` epoch steps. -/
noncomputable def warmupFactor : WarmupSched → Nat → ℝ
  | WarmupSched.linear sf total, t =>
      (sf : ℝ) + (1 - (sf : ℝ)) * (min t total : Nat) / (total : ℝ)
  | WarmupSched.const f total, t =>
      if t < total then (f : ℝ) else 1

/-- Modelled from the documented closed forms of
`torch.optim.lr_scheduler.StepLR`, `CosineAnnealingLR` (with its default
`eta_min = 0`), `ExponentialLR` and `SequentialLR`: the learning-rate value
held after `t` epoch steps, for base learning rate `base`.  `SequentialLR`
with milestone `m` lets the warmup govern steps `t < m` and hands step
`t ≥ m` to the main scheduler at its own step `t - m` (on the switching step
it calls the inner scheduler as if freshly started, which the closed form
reflects). -/
noncomputable def schedValue (base : ℝ) : Sched → Nat → ℝ
  | Sched.stepLR size gamma, t => base * (gamma : ℝ) ^ (t / size)
  | Sched.cosineAnnealingLR tMax, t =>
      base * (1 + Real.cos (Real.pi * t / tMax)) / 2
  | Sched.exponentialLR gamma, t => base * (gamma : ℝ) ^ t
  | Sched.sequentialLR warmup m main, t =>
      if t < m then base * warmupFactor warmup t
      else schedValue base main (t - m)

/-- The per-batch micro-steps of `Trainer.train_one_epoch` (lines 178-199)
and `Trainer.evaluate` (lines 221-235), in program order.  `backward` and
`optimStep` record whether they go through the gradient scaler
(`scaler.scale(loss).backward()` / `scaler.step(optimizer)`). -/
inductive BatchEvent where
  | poissonEncode
  | modelForward
  | outputMeanOverT
  | mseLossOneHot
  | zeroGrad
  | backward (scaled : Bool)
  | unscaleGrads
  | clipGradNorm
  | optimStep (scaled : Bool)
  | scalerUpdate
  | resetNet
deriving DecidableEq

/-- The micro-steps one training batch performs, read off lines 178-199:
preprocess (`preprocess_train_sample`: repeat over `args.T` then Poisson
encode), forward, `process_model_output` (mean over the time dimension),
MSE loss against the one-hot target, `optimizer.zero_grad()`, then the
scaler branch (lines 187-193) or the plain branch (lines 194-198) — with
gradient clipping exactly when `args.clip_grad_norm is not None` — and
finally `functional.reset_net(model)` (line 199).  `amp` says whether a
scaler exists, `clip` whether `clip_grad_norm` was given. -/
def trainBatchEvents (amp clip : Bool) : List BatchEvent :=
  [BatchEvent.poissonEncode, BatchEvent.modelForward,
   BatchEvent.outputMeanOverT, BatchEvent.mseLossOneHot,
   BatchEvent.zeroGrad] ++
  (if amp then
    [BatchEvent.backward true] ++
    (if clip then [BatchEvent.unscaleGrads, BatchEvent.clipGradNorm] else []) ++
    [BatchEvent.optimStep true, BatchEvent.scalerUpdate]
   else
    [BatchEvent.backward false] ++
    (if clip then [BatchEvent.clipGradNorm] else []) ++
    [BatchEvent.optimStep false]) ++
  [BatchEvent.resetNet]

/-- The micro-steps one evaluation batch performs, read off lines 221-235:
same preprocessing/forward/output/loss path under `torch.inference_mode()`
(no backward, no optimizer), then `functional.reset_net(model)` (line 235). -/
def evalBatchEvents : List BatchEvent :=
  [BatchEvent.poissonEncode, BatchEvent.modelForward,
   BatchEvent.outputMeanOverT, BatchEvent.mseLossOneHot,
   BatchEvent.resetNet]

/-- The flattened micro-step trace of an epoch processing `n` training
batches, one batch after the other. -/
def epochTrainTrace (amp clip : Bool) : Nat → List BatchEvent
  | 0 => []
  | n + 1 => trainBatchEvents amp clip ++ epochTrainTrace amp clip n

/-- The flattened micro-step trace of an evaluation pass over `n` batches. -/
def epochEvalTrace : Nat → List BatchEvent
  | 0 => []
  | n + 1 => evalBatchEvents ++ epochEvalTrace n

/-- Whether the spiking model carries activation state left by a forward
pass: a fold over the trace where `modelForward` dirties the network and
`functional.reset_net` clears it. -/
def netDirty (events : List BatchEvent) : Bool :=
  events.foldl
    (fun dirty e =>
      match e with
      | BatchEvent.modelForward => true
      | BatchEvent.resetNet => false
      | _ => dirty)
    false

/-- Source `Trainer.preprocess_train_sample` / `preprocess_test_sample`
(lines 256-262): `x.unsqueeze(0).repeat(args.T, 1, 1, 1, 1)` replicates the
image tensor `T` times along a new leading time dimension, then
`self.encoder` (a `PoissonEncoder`) maps each time step to a spike frame.
The tensor is abstract (`α`), the encoder a function argument since Poisson
sampling lives in the SNN library. -/
def preprocess_train_sample (T : Nat) (encoder : α → α) (x : α) : List α :=
  (List.replicate T x).map encoder

/-- Source `Trainer.process_model_output` (lines 264-265): `y.mean(0)`, the mean of
the model output over the leading time dimension, for rational-valued
abstract outputs. -/
def process_model_output (y : List ℚ) : ℚ :=
  y.sum / y.length

/-- One already-computed evaluation batch: its size and the scalar metrics
the framework returns for it. -/
structure EvalBatch where
  size : Nat
  loss : ℚ
  acc1 : ℚ
  acc5 : ℚ
deriving DecidableEq

/-- What `Trainer.evaluate` produces: whether the sample-count warning fired
and the returned `(loss, acc1, acc5)` tuple. -/
structure EvalResult where
  warned : Bool
  loss : ℚ
  acc1 : ℚ
  acc5 : ℚ
deriving DecidableEq

/-- Source `Trainer.evaluate` (lines 213-254) over the per-batch metric values.
The loss meter is updated once per batch (`metric_logger.update`, weight 1),
the accuracy meters with weight `batch_size`; `global_avg` of a meter is the
sample-weighted mean (modelled from the spec: "the metric accumulator's
global average equals the sample-weighted mean across all merged updates").
`num_processed_samples` is summed over batches, then
`utils.reduce_across_processes` adds the other processes' counts (modelled
from the spec as the across-process sum, here `other`).  CIFAR-10 datasets
always have `__len__`, so the warning at lines 238-248 fires exactly when
the reduced count differs from `dataset_len` and this is the main process;
nothing is raised either way and the metric tuple is returned unchanged. -/
def evaluate (is_main : Bool) (dataset_len other : Nat) (batches : List EvalBatch) :
    EvalResult :=
  let num_processed_samples := (batches.map (fun b => b.size)).sum + other
  { warned := is_main && decide (dataset_len ≠ num_processed_samples)
    loss := (batches.map (fun b => b.loss)).sum / (batches.length : ℚ)
    acc1 := (batches.map (fun b => b.acc1 * (b.size : ℚ))).sum
              / (((batches.map (fun b => b.size)).sum : Nat) : ℚ)
    acc5 := (batches.map (fun b => b.acc5 * (b.size : ℚ))).sum
              / (((batches.map (fun b => b.size)).sum : Nat) : ℚ) }

/-- A concrete environment used in closed statements: all state blobs `0`,
every epoch's test accuracy `1/2`. -/
def envHalf : EnvStates :=
  ⟨fun _ => 0, fun _ => 0, fun _ => 0, fun _ => 0, fun _ => 1/2⟩

/-- The epoch index stored in a `saveLatest` event, if any. -/
def latestEpoch : EpochEvent → Option Nat
  | EpochEvent.saveLatest ck => some ck.epoch
  | _ => none

/-- The epoch index stored in a `saveBest` event, if any. -/
def bestEpoch : EpochEvent → Option Nat
  | EpochEvent.saveBest ck => some ck.epoch
  | _ => none

/-- Running maximum of the initial best accuracy and the test accuracies of
the run's epochs strictly before `e` — the value `max_test_acc1` holds when
epoch `e` begins. -/
def maxBefore (env : EnvStates) (args : Args) (m₀ : ℚ) (e : Nat) : ℚ :=
  (List.range' args.start_epoch (e - args.start_epoch)).foldl
    (fun acc k => max acc (env.testAcc1 k)) m₀

/-- A concrete environment whose test accuracy improves at epoch 0 and
worsens at epoch 1. -/
def envUpDown : EnvStates :=
  ⟨fun _ => 0, fun _ => 0, fun _ => 0, fun _ => 0,
   fun k => if k = 0 then 1/2 else 1/4⟩

/-- The scheduler object `set_lr_scheduler` builds for the cosine primary
schedule with a positive linear warmup: `SequentialLR` chaining `LinearLR`
and `CosineAnnealingLR` at milestone `lr_warmup_epochs` (lines 309-340). -/
def cosaWarmupSched (args : Args) : Sched :=
  Sched.sequentialLR
    (WarmupSched.linear args.lr_warmup_decay args.lr_warmup_epochs)
    args.lr_warmup_epochs
    (Sched.cosineAnnealingLR (args.epochs - args.lr_warmup_epochs))

/-- A concrete cosine-with-warmup configuration: base lr 1, two warmup
epochs, four epochs total. -/
def cosaArgs : Args :=
  { defaultArgs with epochs := 4, lr_warmup_epochs := 2, lr := 1 }

/-- C1: on resume (`args.resume is not None`), after loading a checkpoint
with epoch field `e` the script sets `start_epoch = e + 1`, and the epoch
loop `range(start_epoch, epochs)` then visits exactly the epochs
`e+1, …, epochs-1`, strictly increasing, so no epoch is repeated and none is
skipped. -/
theorem resume_runs_exactly_the_remaining_epochs
    (is_main : Bool) (args : Args) (st : ProcState) (ck : Checkpoint)
    (h : args.resume ≠ none) :
    (afterResume is_main args st ck).1.start_epoch = ck.epoch + 1 ∧
    (epochsRun (afterResume is_main args st ck).1).Pairwise (· < ·) ∧
    ∀ k, k ∈ epochsRun (afterResume is_main args st ck).1 ↔
      ck.epoch + 1 ≤ k ∧ k < args.epochs := by
  obtain ⟨r, hr⟩ := Option.ne_none_iff_exists'.mp h
  have hres : afterResume is_main args st ck = resumeLoad is_main args st ck := by
    simp [afterResume, hr]
  refine ⟨by simp [hres, resumeLoad], ?_, ?_⟩
  · exact List.pairwise_lt_range' _ _
  · intro k
    rw [hres]
    show k ∈ List.range' (ck.epoch + 1) (args.epochs - (ck.epoch + 1)) ↔ _
    rw [List.mem_range'_1]
    omega

/-- Witness for C1 at the parser defaults with `--resume latest` and a
checkpoint at epoch 39: training resumes at epoch 40 and runs exactly
epochs 40 … 89. -/
theorem resume_runs_exactly_the_remaining_epochs_witness :
    (afterResume true { defaultArgs with resume := some "latest" }
        ⟨0, 0, 0, none, -1⟩ ⟨7, 8, 9, 39, 1/2, none⟩).1.start_epoch = 39 + 1 ∧
    (epochsRun (afterResume true { defaultArgs with resume := some "latest" }
        ⟨0, 0, 0, none, -1⟩ ⟨7, 8, 9, 39, 1/2, none⟩).1).Pairwise (· < ·) ∧
    ∀ k, k ∈ epochsRun (afterResume true { defaultArgs with resume := some "latest" }
        ⟨0, 0, 0, none, -1⟩ ⟨7, 8, 9, 39, 1/2, none⟩).1 ↔ 39 + 1 ≤ k ∧ k < 90 :=
  resume_runs_exactly_the_remaining_epochs true
    { defaultArgs with resume := some "latest" }
    ⟨0, 0, 0, none, -1⟩ ⟨7, 8, 9, 39, 1/2, none⟩ (by simp)

/-- C10: `get_logdir_name` reads only the seven fields model, batch_size,
epochs, opt, lr, weight_decay and seed; two configurations agreeing on them
— whatever their other hyperparameters (`T`, `lr_scheduler`,
`lr_warmup_epochs`, `amp`, `clip_grad_norm`, …) — get the same run-directory
name, and hence (under the same output root) the same checkpoint and
TensorBoard paths, sharing and overwriting the same files. -/
theorem logdir_name_depends_only_on_seven_fields
    (a b : Args)
    (hmodel : a.model = b.model) (hbs : a.batch_size = b.batch_size)
    (hep : a.epochs = b.epochs) (hopt : a.opt = b.opt)
    (hlr : a.lr = b.lr) (hwd : a.weight_decay = b.weight_decay)
    (hseed : a.seed = b.seed) :
    get_logdir_name a = get_logdir_name b ∧
    (a.output_dir = b.output_dir →
      pt_dir a = pt_dir b ∧ tb_dir a = tb_dir b ∧
      latest_checkpoint_path a = latest_checkpoint_path b ∧
      best_checkpoint_path a = best_checkpoint_path b) := by
  have hname : get_logdir_name a = get_logdir_name b := by
    simp [get_logdir_name, hmodel, hbs, hep, hopt, hlr, hwd, hseed]
  refine ⟨hname, fun hout => ?_⟩
  simp [pt_dir, tb_dir, latest_checkpoint_path, best_checkpoint_path, hname, hout]

/-- Witness for C10: the default configuration and a variant differing in
`T`, `lr_scheduler`, `lr_warmup_epochs`, `amp` and `clip_grad_norm` collide
on the directory name and on every checkpoint/log path. -/
theorem logdir_name_depends_only_on_seven_fields_witness :
    get_logdir_name defaultArgs =
      get_logdir_name { defaultArgs with
        T := 8, lr_scheduler := "step", lr_warmup_epochs := 0,
        amp := true, clip_grad_norm := some 1 } ∧
    (defaultArgs.output_dir = ({ defaultArgs with
        T := 8, lr_scheduler := "step", lr_warmup_epochs := 0,
        amp := true, clip_grad_norm := some 1 } : Args).output_dir →
      pt_dir defaultArgs = pt_dir { defaultArgs with
        T := 8, lr_scheduler := "step", lr_warmup_epochs := 0,
        amp := true, clip_grad_norm := some 1 } ∧
      tb_dir defaultArgs = tb_dir { defaultArgs with
        T := 8, lr_scheduler := "step", lr_warmup_epochs := 0,
        amp := true, clip_grad_norm := some 1 } ∧
      latest_checkpoint_path defaultArgs = latest_checkpoint_path { defaultArgs with
        T := 8, lr_scheduler := "step", lr_warmup_epochs := 0,
        amp := true, clip_grad_norm := some 1 } ∧
      best_checkpoint_path defaultArgs = best_checkpoint_path { defaultArgs with
        T := 8, lr_scheduler := "step", lr_warmup_epochs := 0,
        amp := true, clip_grad_norm := some 1 }) :=
  logdir_name_depends_only_on_seven_fields defaultArgs
    { defaultArgs with
        T := 8, lr_scheduler := "step", lr_warmup_epochs := 0,
        amp := true, clip_grad_norm := some 1 }
    rfl rfl rfl rfl rfl rfl rfl

/-- C6: setup accepts a configuration exactly when the lower-cased optimizer
name is `sgd` or `adamw`, the lower-cased scheduler name is `step`, `cosa`
or `exp`, and — only checked when `lr_warmup_epochs > 0` — the warmup method
is `linear` or `constant`; otherwise `set_optimizer` / `set_lr_scheduler`
raise `NotImplementedError`, and since both run before the epoch loop the
error aborts the run before any training step. -/
theorem setup_rejects_unknown_names (args : Args) :
    ((setupOptAndSched args).isOk = true ↔
      ((pyLower args.opt = "sgd" ∨ pyLower args.opt = "adamw") ∧
       (pyLower args.lr_scheduler = "step" ∨ pyLower args.lr_scheduler = "cosa" ∨
        pyLower args.lr_scheduler = "exp") ∧
       (0 < args.lr_warmup_epochs →
        args.lr_warmup_method = "linear" ∨ args.lr_warmup_method = "constant"))) ∧
    (∀ (is_main : Bool) (env : EnvStates) (m₀ : ℚ) (e : String),
      setupOptAndSched args = Except.error e →
      mainRun is_main env args m₀ = Except.error e) := by
  constructor
  · by_cases h1 : pyLower args.opt = "sgd" <;>
    by_cases h2 : pyLower args.opt = "adamw" <;>
    by_cases h3 : pyLower args.lr_scheduler = "step" <;>
    by_cases h4 : pyLower args.lr_scheduler = "cosa" <;>
    by_cases h5 : pyLower args.lr_scheduler = "exp" <;>
    by_cases h6 : 0 < args.lr_warmup_epochs <;>
    by_cases h7 : args.lr_warmup_method = "linear" <;>
    by_cases h8 : args.lr_warmup_method = "constant" <;>
    simp_all [setupOptAndSched, set_optimizer, set_lr_scheduler,
      Except.isOk, Except.toBool, Bind.bind, Except.bind, Pure.pure, Except.pure,
      Nat.not_lt, Nat.le_zero]
  · intro is_main env m₀ e he
    simp [mainRun, he]

/-- Witness for C6: the optimizer name `rmsprop` is rejected and the run
aborts with the `NotImplementedError`, producing no epoch trace. -/
theorem setup_rejects_unknown_names_witness :
    (setupOptAndSched { defaultArgs with opt := "rmsprop" }).isOk = false ∧
    mainRun true ⟨fun _ => 0, fun _ => 0, fun _ => 0, fun _ => 0, fun _ => 0⟩
        { defaultArgs with opt := "rmsprop" } (-1) =
      Except.error "NotImplementedError: Not supported optimizer" := by
  have h := setup_rejects_unknown_names { defaultArgs with opt := "rmsprop" }
  constructor
  · have hne : ¬ ((setupOptAndSched { defaultArgs with opt := "rmsprop" }).isOk = true) := by
      intro hh
      have := h.1.mp hh
      revert this
      decide
    exact Bool.eq_false_iff.mpr hne
  · exact h.2 true ⟨fun _ => 0, fun _ => 0, fun _ => 0, fun _ => 0, fun _ => 0⟩ (-1) _ (by rfl)

/-- Every checkpoint the epoch loop writes carries the `state_dict()`
snapshots of its own epoch and has a scaler entry exactly when a scaler
exists. -/
theorem runFrom_savedCk_fields (is_main amp : Bool) (env : EnvStates) :
    ∀ (n start : Nat) (m : ℚ), ∀ ev ∈ (runFrom is_main amp env start n m).2,
      ∀ c, savedCk ev = some c →
        c.model = env.modelSD c.epoch ∧ c.optimizer = env.optimSD c.epoch ∧
        c.lr_scheduler = env.schedSD c.epoch ∧ c.scaler.isSome = amp := by
  intro n
  induction n with
  | zero =>
    intro start m ev hev
    simp [runFrom] at hev
  | succ n ih =>
    intro start m ev hev c hc
    rw [runFrom] at hev
    rcases List.mem_append.mp hev with h | h
    · by_cases him : is_main
      · rcases (by
            simpa [epochBody, him, List.mem_append] using h :
            ev = EpochEvent.trainPass start ∨ ev = EpochEvent.schedStep start ∨
            ev = EpochEvent.evalPass start ∨
            (ev = EpochEvent.saveLatest (mkCheckpoint amp env start
              (if m < env.testAcc1 start then env.testAcc1 start else m)) ∨
            (m < env.testAcc1 start ∧
              ev = EpochEvent.saveBest (mkCheckpoint amp env start
                (if m < env.testAcc1 start then env.testAcc1 start else m))))) with
          h1 | h1 | h1 | hsave | hsave
        · subst h1; simp [savedCk] at hc
        · subst h1; simp [savedCk] at hc
        · subst h1; simp [savedCk] at hc
        · subst hsave
          simp only [savedCk, Option.some.injEq] at hc
          subst hc
          cases amp <;> simp [mkCheckpoint]
        · rcases hsave with ⟨_, h1⟩
          subst h1
          simp only [savedCk, Option.some.injEq] at hc
          subst hc
          cases amp <;> simp [mkCheckpoint]
      · simp only [epochBody, him, if_neg, Bool.false_eq_true, if_false] at h
        rcases (by simpa using h :
            ev = EpochEvent.trainPass start ∨ ev = EpochEvent.schedStep start ∨
              ev = EpochEvent.evalPass start) with h1 | h1 | h1 <;>
          subst h1 <;> simp [savedCk] at hc
    · exact ih (start + 1) _ ev h c hc

/-- C4 as stated is false: with the parser defaults (no `--amp`, so no
gradient scaler), the latest checkpoint the loop writes at the end of
epoch 0 of a one-epoch run contains no scaler state at all — the source
adds the `"scaler"` entry only under `if scaler:` (line 162). -/
theorem checkpoint_all_six_components_counterexample :
    EpochEvent.saveLatest
        { model := 0, optimizer := 0, lr_scheduler := 0, epoch := 0,
          max_test_acc1 := 1/2, scaler := none } ∈
      (mainLoop true envHalf { defaultArgs with epochs := 1 } (-1)).2 ∧
    ({ model := 0, optimizer := 0, lr_scheduler := 0, epoch := 0,
       max_test_acc1 := 1/2, scaler := none } : Checkpoint).scaler.isSome = false := by
  constructor
  · norm_num [mainLoop, runFrom, epochBody, envHalf, mkCheckpoint, defaultArgs]
  · rfl

/-- C4 amended: every checkpoint the loop writes contains the model,
optimizer and scheduler state of its epoch, the epoch index and the best
accuracy so far, and contains scaler state exactly when `--amp` was given;
on resume, model, optimizer and scheduler state are always restored and
`start_epoch` is set from the stored epoch, but the scaler state is restored
only when a scaler exists (`args.amp`) and the best-accuracy bookkeeping is
restored only on the coordinating process. -/
theorem checkpoint_components_saved_and_restored
    (is_main amp : Bool) (env : EnvStates) (n start : Nat) (m : ℚ)
    (rm : Bool) (args : Args) (st : ProcState) (ck : Checkpoint) :
    (∀ ev ∈ (runFrom is_main amp env start n m).2, ∀ c, savedCk ev = some c →
      c.model = env.modelSD c.epoch ∧ c.optimizer = env.optimSD c.epoch ∧
      c.lr_scheduler = env.schedSD c.epoch ∧ c.scaler.isSome = amp) ∧
    (resumeLoad rm args st ck).2.modelState = ck.model ∧
    (resumeLoad rm args st ck).2.optState = ck.optimizer ∧
    (resumeLoad rm args st ck).2.schedState = ck.lr_scheduler ∧
    (resumeLoad rm args st ck).1.start_epoch = ck.epoch + 1 ∧
    (args.amp = true → (resumeLoad rm args st ck).2.scalerState = ck.scaler) ∧
    (args.amp = false → (resumeLoad rm args st ck).2.scalerState = st.scalerState) ∧
    (rm = true → (resumeLoad rm args st ck).2.max_test_acc1 = ck.max_test_acc1) ∧
    (rm = false → (resumeLoad rm args st ck).2.max_test_acc1 = st.max_test_acc1) := by
  refine ⟨runFrom_savedCk_fields is_main amp env n start m, ?_⟩
  cases hamp : args.amp <;> cases hrm : rm <;>
    simp [resumeLoad, hamp, hrm]

/-- Witness for C4 (amended), at a two-epoch run with `--amp` on the
coordinating process and a resume from a checkpoint holding scaler state:
the first saved checkpoint of the run carries scaler state, and the resume
restores every stored component. -/
theorem checkpoint_components_saved_and_restored_witness :
    (({ model := 3, optimizer := 4, lr_scheduler := 5, epoch := 6,
        max_test_acc1 := 1/4, scaler := some 9 } : Checkpoint).model = 3 ∧
      12 = 12) ∧
    (resumeLoad true { defaultArgs with amp := true } ⟨0, 0, 0, some 0, -1⟩
        ⟨3, 4, 5, 6, 1/4, some 9⟩).2.modelState = 3 ∧
    (resumeLoad true { defaultArgs with amp := true } ⟨0, 0, 0, some 0, -1⟩
        ⟨3, 4, 5, 6, 1/4, some 9⟩).2.optState = 4 ∧
    (resumeLoad true { defaultArgs with amp := true } ⟨0, 0, 0, some 0, -1⟩
        ⟨3, 4, 5, 6, 1/4, some 9⟩).2.schedState = 5 ∧
    (resumeLoad true { defaultArgs with amp := true } ⟨0, 0, 0, some 0, -1⟩
        ⟨3, 4, 5, 6, 1/4, some 9⟩).1.start_epoch = 6 + 1 ∧
    (resumeLoad true { defaultArgs with amp := true } ⟨0, 0, 0, some 0, -1⟩
        ⟨3, 4, 5, 6, 1/4, some 9⟩).2.scalerState = some 9 ∧
    (resumeLoad true { defaultArgs with amp := true } ⟨0, 0, 0, some 0, -1⟩
        ⟨3, 4, 5, 6, 1/4, some 9⟩).2.max_test_acc1 = 1/4 := by
  have h := checkpoint_components_saved_and_restored true true envHalf 2 0 (-1)
    true { defaultArgs with amp := true } ⟨0, 0, 0, some 0, -1⟩
    ⟨3, 4, 5, 6, 1/4, some 9⟩
  exact ⟨⟨rfl, rfl⟩, h.2.1, h.2.2.1, h.2.2.2.1, h.2.2.2.2.1,
    h.2.2.2.2.2.1 rfl, h.2.2.2.2.2.2.2.1 rfl⟩

/-- Position-indexed invariants survive concatenation: if every position of
`t` and of `rest` satisfies `Q` of its own prefix, and `Q` is stable under
extending the prefix on the left by `t`, then every position of `t ++ rest`
satisfies `Q` of its prefix. -/
theorem indexed_inv_append {E : Type} (Q : List E → E → Prop) (t rest : List E)
    (ht : ∀ i (h : i < t.length), Q (t.take i) (t.get ⟨i, h⟩))
    (hrest : ∀ i (h : i < rest.length), Q (rest.take i) (rest.get ⟨i, h⟩))
    (hmono : ∀ pre e, Q pre e → Q (t ++ pre) e) :
    ∀ i (h : i < (t ++ rest).length), Q ((t ++ rest).take i) ((t ++ rest).get ⟨i, h⟩) := by
  intro i h
  rcases Nat.lt_or_ge i t.length with hi | hi
  · have e1 : (t ++ rest).take i = t.take i := by
      simp [List.take_append_eq_append_take, Nat.sub_eq_zero_of_le (Nat.le_of_lt hi)]
    have e2 : (t ++ rest).get ⟨i, h⟩ = t.get ⟨i, hi⟩ := by
      simp [List.get_eq_getElem, List.getElem_append_left hi]
    rw [e1, e2]
    exact ht i hi
  · obtain ⟨j, rfl⟩ : ∃ j, i = t.length + j := ⟨i - t.length, by omega⟩
    have hj : j < rest.length := by
      have hl := h
      rw [List.length_append] at hl
      omega
    have e1 : (t ++ rest).take (t.length + j) = t ++ rest.take j := by
      simp [List.take_append_eq_append_take]
    have e2 : (t ++ rest).get ⟨t.length + j, h⟩ = rest.get ⟨j, hj⟩ := by
      simp [List.get_eq_getElem, List.getElem_append_right (Nat.le_add_right t.length j)]
    rw [e1, e2]
    exact hmono _ _ (hrest j hj)

/-- On a non-coordinating process the epoch loop performs no checkpoint
write at all: every event of its trace saves nothing. -/
theorem runFrom_no_saves_off_main (amp : Bool) (env : EnvStates) :
    ∀ (n start : Nat) (m : ℚ), ∀ ev ∈ (runFrom false amp env start n m).2,
      savedCk ev = none := by
  intro n
  induction n with
  | zero =>
    intro start m ev hev
    simp [runFrom] at hev
  | succ n ih =>
    intro start m ev hev
    rw [runFrom] at hev
    rcases List.mem_append.mp hev with h | h
    · rcases (by simpa [epochBody] using h :
          ev = EpochEvent.trainPass start ∨ ev = EpochEvent.schedStep start ∨
            ev = EpochEvent.evalPass start) with h1 | h1 | h1 <;>
        subst h1 <;> rfl
    · exact ih (start + 1) _ ev h

/-- On the coordinating process the loop writes the latest checkpoint
exactly once per epoch, in epoch order, and the epoch stored in it is that
epoch's index. -/
theorem runFrom_latest_epochs (amp : Bool) (env : EnvStates) :
    ∀ (n start : Nat) (m : ℚ),
      (runFrom true amp env start n m).2.filterMap latestEpoch =
        List.range' start n := by
  intro n
  induction n with
  | zero =>
    intro start m
    simp [runFrom]
  | succ n ih =>
    intro start m
    rw [runFrom, List.range'_succ]
    rw [List.filterMap_append]
    by_cases him : m < env.testAcc1 start <;>
      simp [epochBody, him, latestEpoch, mkCheckpoint, ih (start + 1)]

/-- Within one epoch body, any checkpoint write occurs after the epoch's
training pass, scheduler step and evaluation pass, and stores exactly that
epoch's index. -/
theorem epochBody_write_after_work (is_main amp : Bool) (env : EnvStates)
    (start : Nat) (m : ℚ) :
    ∀ i (h : i < ((epochBody is_main amp env start m).2).length),
      ∀ c, savedCk (((epochBody is_main amp env start m).2).get ⟨i, h⟩) = some c →
        EpochEvent.trainPass c.epoch ∈ ((epochBody is_main amp env start m).2).take i ∧
        EpochEvent.schedStep c.epoch ∈ ((epochBody is_main amp env start m).2).take i ∧
        EpochEvent.evalPass c.epoch ∈ ((epochBody is_main amp env start m).2).take i := by
  cases is_main with
  | false =>
    intro i h
    simp only [epochBody, Bool.false_eq_true, if_false, List.length_cons,
      List.length_nil] at h ⊢
    interval_cases i <;> simp [savedCk]
  | true =>
    by_cases himp : m < env.testAcc1 start <;>
    · intro i h
      simp only [epochBody, himp, if_true, if_false, List.append_assoc,
        List.cons_append, List.nil_append, List.length_cons, List.length_nil] at h ⊢
      interval_cases i <;>
        simp_all [savedCk, mkCheckpoint, List.take_succ_cons, List.take_zero]

/-- Over the whole loop trace, any checkpoint write is preceded by the
training pass, the scheduler step and the evaluation pass of the epoch it
stores. -/
theorem runFrom_write_after_full_epoch (is_main amp : Bool) (env : EnvStates) :
    ∀ (n start : Nat) (m : ℚ) (i : Nat)
      (h : i < (runFrom is_main amp env start n m).2.length),
      ∀ c, savedCk ((runFrom is_main amp env start n m).2.get ⟨i, h⟩) = some c →
        EpochEvent.trainPass c.epoch ∈ (runFrom is_main amp env start n m).2.take i ∧
        EpochEvent.schedStep c.epoch ∈ (runFrom is_main amp env start n m).2.take i ∧
        EpochEvent.evalPass c.epoch ∈ (runFrom is_main amp env start n m).2.take i := by
  intro n
  induction n with
  | zero =>
    intro start m i h
    rw [runFrom] at h
    simp at h
  | succ n ih =>
    intro start m
    have hEq : (runFrom is_main amp env start (n + 1) m).2 =
        (epochBody is_main amp env start m).2 ++
          (runFrom is_main amp env (start + 1) n
            (epochBody is_main amp env start m).1).2 := by
      rw [runFrom]
    simp only [hEq]
    exact indexed_inv_append
      (fun pre ev => ∀ c, savedCk ev = some c →
        EpochEvent.trainPass c.epoch ∈ pre ∧ EpochEvent.schedStep c.epoch ∈ pre ∧
        EpochEvent.evalPass c.epoch ∈ pre)
      _ _ (epochBody_write_after_work is_main amp env start m)
      (fun i h => ih (start + 1) _ i h)
      (fun pre e hq c hc =>
        ⟨List.mem_append.mpr (Or.inr (hq c hc).1),
         List.mem_append.mpr (Or.inr (hq c hc).2.1),
         List.mem_append.mpr (Or.inr (hq c hc).2.2)⟩)

/-- C3: checkpoints are written only on the coordinating process; on it, the
latest checkpoint is written exactly once at the end of every epoch of the
run, in order, storing that epoch's index; and every checkpoint write in the
trace (latest or best) happens only after the stored epoch's training pass,
scheduler step and evaluation pass have all been performed. -/
theorem latest_checkpoint_each_epoch_on_main_only
    (is_main : Bool) (env : EnvStates) (args : Args) (m₀ : ℚ) :
    (is_main = false → ∀ ev ∈ (mainLoop is_main env args m₀).2, savedCk ev = none) ∧
    (is_main = true →
      (mainLoop is_main env args m₀).2.filterMap latestEpoch = epochsRun args) ∧
    (∀ i (h : i < (mainLoop is_main env args m₀).2.length) c,
      savedCk ((mainLoop is_main env args m₀).2.get ⟨i, h⟩) = some c →
        EpochEvent.trainPass c.epoch ∈ (mainLoop is_main env args m₀).2.take i ∧
        EpochEvent.schedStep c.epoch ∈ (mainLoop is_main env args m₀).2.take i ∧
        EpochEvent.evalPass c.epoch ∈ (mainLoop is_main env args m₀).2.take i) := by
  refine ⟨?_, ?_, ?_⟩
  · intro hm
    subst hm
    exact runFrom_no_saves_off_main args.amp env _ _ m₀
  · intro hm
    subst hm
    exact runFrom_latest_epochs args.amp env _ _ m₀
  · exact runFrom_write_after_full_epoch is_main args.amp env _ _ m₀

/-- Witness for C3: a one-epoch run on the coordinating process writes the
latest checkpoint exactly for epoch 0, and the write at position 3 of the
trace is preceded by epoch 0's training pass, scheduler step and evaluation
pass. -/
theorem latest_checkpoint_each_epoch_on_main_only_witness :
    ((mainLoop true envHalf { defaultArgs with epochs := 1 } (-1)).2.filterMap
        latestEpoch = epochsRun { defaultArgs with epochs := 1 }) ∧
    (EpochEvent.trainPass 0 ∈
        (mainLoop true envHalf { defaultArgs with epochs := 1 } (-1)).2.take 3 ∧
      EpochEvent.schedStep 0 ∈
        (mainLoop true envHalf { defaultArgs with epochs := 1 } (-1)).2.take 3 ∧
      EpochEvent.evalPass 0 ∈
        (mainLoop true envHalf { defaultArgs with epochs := 1 } (-1)).2.take 3) := by
  have h := latest_checkpoint_each_epoch_on_main_only true envHalf
    { defaultArgs with epochs := 1 } (-1)
  have hlen : 3 < (mainLoop true envHalf { defaultArgs with epochs := 1 } (-1)).2.length := by
    norm_num [mainLoop, runFrom, epochBody, envHalf, mkCheckpoint, defaultArgs]
  have hsave : savedCk ((mainLoop true envHalf
      { defaultArgs with epochs := 1 } (-1)).2.get ⟨3, hlen⟩) =
      some ⟨0, 0, 0, 0, 1/2, none⟩ := by
    norm_num [mainLoop, runFrom, epochBody, envHalf, mkCheckpoint, defaultArgs, savedCk]
  exact ⟨h.2.1 rfl, h.2.2 3 hlen ⟨0, 0, 0, 0, 1/2, none⟩ hsave⟩

/-- The update at lines 150-153 — `if test_acc1 > max_test_acc1:
max_test_acc1 = test_acc1` — computes the maximum of old best and new
accuracy. -/
theorem if_lt_max (m a : ℚ) : (if m < a then a else m) = max m a := by
  rcases lt_or_le m a with h | h
  · rw [if_pos h, max_eq_right h.le]
  · rw [if_neg (not_lt.mpr h), max_eq_left h]

/-- Peeling the first epoch off a running-maximum fold over an epoch
interval. -/
theorem foldl_max_range'_step (env : EnvStates) (m : ℚ) (start e : Nat)
    (h : start < e) :
    (List.range' start (e - start)).foldl (fun acc k => max acc (env.testAcc1 k)) m =
      (List.range' (start + 1) (e - (start + 1))).foldl
        (fun acc k => max acc (env.testAcc1 k)) (max m (env.testAcc1 start)) := by
  have h1 : e - start = (e - (start + 1)) + 1 := by omega
  rw [h1, List.range'_succ, List.foldl_cons]

/-- The `max_test_acc1` value the loop ends with is the running maximum of
the initial value and all test accuracies of the epochs run. -/
theorem runFrom_final_max (amp : Bool) (env : EnvStates) :
    ∀ (n start : Nat) (m : ℚ),
      (runFrom true amp env start n m).1 =
        (List.range' start n).foldl (fun acc k => max acc (env.testAcc1 k)) m := by
  intro n
  induction n with
  | zero =>
    intro start m
    rw [runFrom]
    simp
  | succ n ih =>
    intro start m
    rw [runFrom, List.range'_succ, List.foldl_cons]
    show (runFrom true amp env (start + 1) n (epochBody true amp env start m).1).1 = _
    rw [ih (start + 1)]
    have hm1 : (epochBody true amp env start m).1 = max m (env.testAcc1 start) := by
      simp only [epochBody, if_true]
      exact if_lt_max m (env.testAcc1 start)
    rw [hm1]

/-- The best checkpoint is written for epoch `e` exactly when `e` is among
the epochs run and its test accuracy strictly exceeds the running maximum
over all earlier epochs of the run (and the initial value). -/
theorem runFrom_best_epochs (amp : Bool) (env : EnvStates) :
    ∀ (n start : Nat) (m : ℚ) (e : Nat),
      e ∈ (runFrom true amp env start n m).2.filterMap bestEpoch ↔
        (start ≤ e ∧ e < start + n ∧
          (List.range' start (e - start)).foldl
            (fun acc k => max acc (env.testAcc1 k)) m < env.testAcc1 e) := by
  intro n
  induction n with
  | zero =>
    intro start m e
    rw [runFrom]
    simp only [List.filterMap_nil, List.not_mem_nil, false_iff]
    rintro ⟨h1, h2, -⟩
    omega
  | succ n ih =>
    intro start m e
    have hEq : (runFrom true amp env start (n + 1) m).2 =
        (epochBody true amp env start m).2 ++
          (runFrom true amp env (start + 1) n (epochBody true amp env start m).1).2 := by
      rw [runFrom]
    have hm1 : (epochBody true amp env start m).1 = max m (env.testAcc1 start) := by
      simp only [epochBody, if_true]
      exact if_lt_max m (env.testAcc1 start)
    have hbody : (epochBody true amp env start m).2.filterMap bestEpoch =
        if m < env.testAcc1 start then [start] else [] := by
      by_cases himp : m < env.testAcc1 start <;>
        simp [epochBody, himp, bestEpoch, mkCheckpoint]
    rw [hEq, List.filterMap_append, List.mem_append, hbody, hm1, ih (start + 1)]
    by_cases himp : m < env.testAcc1 start
    · rw [if_pos himp]
      constructor
      · rintro (h1 | ⟨h2a, h2b, h2c⟩)
        · have he : e = start := by simpa using h1
          subst he
          exact ⟨le_refl e, by omega, by simpa [Nat.sub_self] using himp⟩
        · exact ⟨by omega, by omega,
            by rwa [foldl_max_range'_step env m start e (by omega)]⟩
      · rintro ⟨h1, h2, h3⟩
        rcases Nat.eq_or_lt_of_le h1 with he | he
        · left
          simp [← he]
        · right
          exact ⟨by omega, by omega,
            by rwa [foldl_max_range'_step env m start e he] at h3⟩
    · rw [if_neg himp]
      constructor
      · rintro (h1 | ⟨h2a, h2b, h2c⟩)
        · simp at h1
        · exact ⟨by omega, by omega,
            by rwa [foldl_max_range'_step env m start e (by omega)]⟩
      · rintro ⟨h1, h2, h3⟩
        rcases Nat.eq_or_lt_of_le h1 with he | he
        · exfalso
          rw [← he, Nat.sub_self] at h3
          simp only [List.range'_zero, List.foldl_nil] at h3
          exact himp h3
        · right
          exact ⟨by omega, by omega,
            by rwa [foldl_max_range'_step env m start e he] at h3⟩

/-- C2: on the coordinating process, for every epoch of the run the best
checkpoint `checkpoint_max_test_acc1.pth` is written exactly when that
epoch's test top-1 accuracy strictly exceeds the `max_test_acc1` in force
when the epoch began; `max_test_acc1` becomes the new accuracy exactly in
that case and is left unchanged otherwise; and the loop's final
`max_test_acc1` is the running maximum over the whole run. -/
theorem best_update_iff_strict_improvement
    (env : EnvStates) (args : Args) (m₀ : ℚ) :
    (mainLoop true env args m₀).1 = maxBefore env args m₀ args.epochs ∧
    (∀ e ∈ epochsRun args,
      (e ∈ (mainLoop true env args m₀).2.filterMap bestEpoch ↔
        maxBefore env args m₀ e < env.testAcc1 e)) ∧
    (∀ e ∈ epochsRun args,
      maxBefore env args m₀ (e + 1) =
        if maxBefore env args m₀ e < env.testAcc1 e then env.testAcc1 e
        else maxBefore env args m₀ e) := by
  refine ⟨?_, ?_, ?_⟩
  · simp only [mainLoop]
    exact runFrom_final_max args.amp env _ _ m₀
  · intro e he
    have hmem : args.start_epoch ≤ e ∧ e < args.start_epoch + (args.epochs - args.start_epoch) :=
      List.mem_range'_1.mp (by simpa [epochsRun, pyRange] using he)
    simp only [mainLoop]
    rw [runFrom_best_epochs args.amp env (args.epochs - args.start_epoch)
      args.start_epoch m₀ e]
    constructor
    · rintro ⟨-, -, h3⟩
      exact h3
    · intro h3
      exact ⟨hmem.1, hmem.2, h3⟩
  · intro e he
    have hmem : args.start_epoch ≤ e ∧ e < args.start_epoch + (args.epochs - args.start_epoch) :=
      List.mem_range'_1.mp (by simpa [epochsRun, pyRange] using he)
    have h1 : (e + 1) - args.start_epoch = (e - args.start_epoch) + 1 := by omega
    simp only [maxBefore]
    rw [h1, List.range'_concat, List.foldl_append]
    simp only [List.foldl_cons, List.foldl_nil]
    have h2 : args.start_epoch + 1 * (e - args.start_epoch) = e := by omega
    rw [h2]
    exact (if_lt_max _ _).symm

/-- Witness for C2 on a two-epoch run whose accuracy goes 1/2 then 1/4:
epoch 0 strictly improves on the initial −1 and gets a best-checkpoint
write, epoch 1 does not improve and gets none, and the final best equals
the running maximum. -/
theorem best_update_iff_strict_improvement_witness :
    0 ∈ (mainLoop true envUpDown { defaultArgs with epochs := 2 } (-1)).2.filterMap
        bestEpoch ∧
    1 ∉ (mainLoop true envUpDown { defaultArgs with epochs := 2 } (-1)).2.filterMap
        bestEpoch ∧
    (mainLoop true envUpDown { defaultArgs with epochs := 2 } (-1)).1 =
      maxBefore envUpDown { defaultArgs with epochs := 2 } (-1) 2 := by
  have h := best_update_iff_strict_improvement envUpDown
    { defaultArgs with epochs := 2 } (-1)
  have hm0 : (0 : Nat) ∈ epochsRun { defaultArgs with epochs := 2 } := by
    simp [epochsRun, pyRange, defaultArgs, List.mem_range'_1]
  have hm1 : (1 : Nat) ∈ epochsRun { defaultArgs with epochs := 2 } := by
    simp [epochsRun, pyRange, defaultArgs, List.mem_range'_1]
  refine ⟨?_, ?_, h.1⟩
  · exact (h.2.1 0 hm0).mpr (by norm_num [maxBefore, defaultArgs, envUpDown])
  · intro hmem
    have hlt := (h.2.1 1 hm1).mp hmem
    rw [maxBefore] at hlt
    norm_num [defaultArgs, envUpDown, List.range'] at hlt

/-- C7: the evaluation pass warns exactly when the across-process sample
count differs from the dataset's declared length and this is the main
process; the condition changes nothing else — the returned metric tuple is
the same whatever the declared length or the other processes' counts, and
equals the (sample-weighted) averages over the batches actually processed.
`evaluate` is a total function: no error is ever raised for a mismatch. -/
theorem evaluate_warns_never_fatal
    (is_main : Bool) (len₁ len₂ other₁ other₂ : Nat) (batches : List EvalBatch) :
    ((evaluate is_main len₁ other₁ batches).warned = true ↔
      (is_main = true ∧ len₁ ≠ (batches.map (fun b => b.size)).sum + other₁)) ∧
    (evaluate is_main len₁ other₁ batches).loss =
      (evaluate is_main len₂ other₂ batches).loss ∧
    (evaluate is_main len₁ other₁ batches).acc1 =
      (evaluate is_main len₂ other₂ batches).acc1 ∧
    (evaluate is_main len₁ other₁ batches).acc5 =
      (evaluate is_main len₂ other₂ batches).acc5 ∧
    (evaluate is_main len₁ other₁ batches).loss =
      (batches.map (fun b => b.loss)).sum / (batches.length : ℚ) ∧
    (evaluate is_main len₁ other₁ batches).acc1 =
      (batches.map (fun b => b.acc1 * (b.size : ℚ))).sum /
        (((batches.map (fun b => b.size)).sum : Nat) : ℚ) ∧
    (evaluate is_main len₁ other₁ batches).acc5 =
      (batches.map (fun b => b.acc5 * (b.size : ℚ))).sum /
        (((batches.map (fun b => b.size)).sum : Nat) : ℚ) := by
  refine ⟨?_, rfl, rfl, rfl, rfl, rfl, rfl⟩
  simp [evaluate, Bool.and_eq_true]

/-- C8: in every training batch the micro-steps occur in the claimed order —
Poisson encoding of the `T`-replicated image, model forward, time-mean of
the output, MSE loss against the one-hot target, backward (through the
scaler exactly when mixed precision is on), then the optimizer step;
gradient clipping happens exactly when `clip_grad_norm` is set, and when it
happens it falls between the backward and the optimizer step. -/
theorem train_batch_step_order (amp clip : Bool) :
    ([BatchEvent.poissonEncode, BatchEvent.modelForward,
      BatchEvent.outputMeanOverT, BatchEvent.mseLossOneHot,
      BatchEvent.backward amp, BatchEvent.optimStep amp]).Sublist
        (trainBatchEvents amp clip) ∧
    (BatchEvent.clipGradNorm ∈ trainBatchEvents amp clip ↔ clip = true) ∧
    ((if clip then
        [BatchEvent.backward amp, BatchEvent.clipGradNorm, BatchEvent.optimStep amp]
      else [BatchEvent.backward amp, BatchEvent.optimStep amp]).Sublist
        (trainBatchEvents amp clip)) := by
  cases amp <;> cases clip <;> exact ⟨by decide, by decide, by decide⟩

/-- Prepending a trace that leaves the network clean does not change
whether a later prefix leaves it dirty. -/
theorem netDirty_append_of_clean (t pre : List BatchEvent)
    (h : netDirty t = false) : netDirty (t ++ pre) = netDirty pre := by
  unfold netDirty at h ⊢
  rw [List.foldl_append, h]

/-- One training batch leaves the network clean (its last action is
`reset_net`), and so does one evaluation batch. -/
theorem batch_leaves_net_clean (amp clip : Bool) :
    netDirty (trainBatchEvents amp clip) = false ∧
    netDirty evalBatchEvents = false := by
  cases amp <;> cases clip <;> exact ⟨by decide, by decide⟩

/-- Every forward pass in an `n`-batch training epoch starts on a clean
network. -/
theorem epochTrainTrace_forward_on_clean (amp clip : Bool) :
    ∀ (n : Nat) (i : Nat) (h : i < (epochTrainTrace amp clip n).length),
      (epochTrainTrace amp clip n).get ⟨i, h⟩ = BatchEvent.modelForward →
      netDirty ((epochTrainTrace amp clip n).take i) = false := by
  intro n
  induction n with
  | zero =>
    intro i h
    simp [epochTrainTrace] at h
  | succ n ih =>
    show ∀ (i : Nat)
      (h : i < (trainBatchEvents amp clip ++ epochTrainTrace amp clip n).length), _
    exact indexed_inv_append
      (fun pre ev => ev = BatchEvent.modelForward → netDirty pre = false)
      (trainBatchEvents amp clip) (epochTrainTrace amp clip n)
      (by cases amp <;> cases clip <;> decide)
      ih
      (fun pre e hq he => by
        rw [netDirty_append_of_clean _ _ (batch_leaves_net_clean amp clip).1]
        exact hq he)

/-- Every forward pass in an `n`-batch evaluation pass starts on a clean
network. -/
theorem epochEvalTrace_forward_on_clean :
    ∀ (n : Nat) (i : Nat) (h : i < (epochEvalTrace n).length),
      (epochEvalTrace n).get ⟨i, h⟩ = BatchEvent.modelForward →
      netDirty ((epochEvalTrace n).take i) = false := by
  intro n
  induction n with
  | zero =>
    intro i h
    simp [epochEvalTrace] at h
  | succ n ih =>
    show ∀ (i : Nat) (h : i < (evalBatchEvents ++ epochEvalTrace n).length), _
    exact indexed_inv_append
      (fun pre ev => ev = BatchEvent.modelForward → netDirty pre = false)
      evalBatchEvents (epochEvalTrace n)
      (by decide)
      ih
      (fun pre e hq he => by
        rw [netDirty_append_of_clean _ _ (batch_leaves_net_clean false false).2]
        exact hq he)

/-- C9: in both training and evaluation the spiking network is reset as the
last micro-step of every batch, and consequently, over a whole epoch of
either kind, every forward pass begins with the network's temporal state
clean — no activation state leaks from one batch into the next batch's
forward pass. -/
theorem reset_net_after_every_batch (amp clip : Bool) (n : Nat) :
    (trainBatchEvents amp clip).getLast? = some BatchEvent.resetNet ∧
    evalBatchEvents.getLast? = some BatchEvent.resetNet ∧
    (∀ i (h : i < (epochTrainTrace amp clip n).length),
      (epochTrainTrace amp clip n).get ⟨i, h⟩ = BatchEvent.modelForward →
      netDirty ((epochTrainTrace amp clip n).take i) = false) ∧
    (∀ i (h : i < (epochEvalTrace n).length),
      (epochEvalTrace n).get ⟨i, h⟩ = BatchEvent.modelForward →
      netDirty ((epochEvalTrace n).take i) = false) := by
  refine ⟨?_, by decide, epochTrainTrace_forward_on_clean amp clip n,
    epochEvalTrace_forward_on_clean n⟩
  cases amp <;> cases clip <;> decide

/-- Witness for C9 at two plain (no scaler, no clipping) training batches:
the second batch's forward pass, at position 9 of the 16-step trace, sees a
clean network. -/
theorem reset_net_after_every_batch_witness :
    netDirty ((epochTrainTrace false false 2).take 9) = false :=
  (reset_net_after_every_batch false false 2).2.2.1 9 (by decide) (by decide)

/-- Cosine annealing reaches exactly zero after `T_max` steps. -/
theorem cosineAnnealing_at_Tmax (base : ℝ) (T : Nat) (hT : 0 < T) :
    schedValue base (Sched.cosineAnnealingLR T) T = 0 := by
  have hT' : (T : ℝ) ≠ 0 := Nat.cast_ne_zero.mpr (Nat.pos_iff_ne_zero.mp hT)
  show base * (1 + Real.cos (Real.pi * T / T)) / 2 = 0
  rw [show Real.pi * (T : ℝ) / (T : ℝ) = Real.pi by
    rw [mul_div_assoc, div_self hT', mul_one]]
  rw [Real.cos_pi]
  ring

/-- C5: with the cosine (`cosa`) primary scheduler and linear warmup method,
if `lr_warmup_epochs = N > 0` the built schedule ramps linearly from
`lr * lr_warmup_decay` at step 0 to `lr` at step `N` (governing steps
`t < N`), hands steps `t ≥ N` to cosine annealing with period
`T_max = epochs - N`, and is exactly zero once stepped `epochs` times; with
`N = 0` the cosine scheduler alone governs every step, with
`T_max = epochs`, again reaching zero at step `epochs`. -/
theorem warmup_cosine_lr_schedule (args : Args)
    (hc : pyLower args.lr_scheduler = "cosa")
    (hm : args.lr_warmup_method = "linear")
    (hlt : args.lr_warmup_epochs < args.epochs) :
    (0 < args.lr_warmup_epochs →
      set_lr_scheduler args = Except.ok (cosaWarmupSched args) ∧
      (∀ t, t < args.lr_warmup_epochs →
        schedValue (args.lr : ℝ) (cosaWarmupSched args) t =
          (args.lr : ℝ) * ((args.lr_warmup_decay : ℝ) +
            (1 - (args.lr_warmup_decay : ℝ)) * (t : ℝ) /
              (args.lr_warmup_epochs : ℝ))) ∧
      schedValue (args.lr : ℝ) (cosaWarmupSched args) args.lr_warmup_epochs =
        (args.lr : ℝ) ∧
      (∀ t, args.lr_warmup_epochs ≤ t →
        schedValue (args.lr : ℝ) (cosaWarmupSched args) t =
          (args.lr : ℝ) *
            (1 + Real.cos (Real.pi * ((t - args.lr_warmup_epochs : Nat) : ℝ) /
              ((args.epochs - args.lr_warmup_epochs : Nat) : ℝ))) / 2) ∧
      schedValue (args.lr : ℝ) (cosaWarmupSched args) args.epochs = 0) ∧
    (args.lr_warmup_epochs = 0 →
      set_lr_scheduler args = Except.ok (Sched.cosineAnnealingLR args.epochs) ∧
      (∀ t, schedValue (args.lr : ℝ) (Sched.cosineAnnealingLR args.epochs) t =
        (args.lr : ℝ) * (1 + Real.cos (Real.pi * (t : ℝ) / (args.epochs : ℝ))) / 2) ∧
      schedValue (args.lr : ℝ) (Sched.cosineAnnealingLR args.epochs) args.epochs = 0) := by
  constructor
  · intro hN
    have hsched : set_lr_scheduler args = Except.ok (cosaWarmupSched args) := by
      simp [set_lr_scheduler, hc, hm, hN, cosaWarmupSched,
        Bind.bind, Except.bind, Pure.pure, Except.pure]
    refine ⟨hsched, ?_, ?_, ?_, ?_⟩
    · intro t ht
      show (if t < args.lr_warmup_epochs then
          (args.lr : ℝ) * warmupFactor
            (WarmupSched.linear args.lr_warmup_decay args.lr_warmup_epochs) t
        else schedValue (args.lr : ℝ)
          (Sched.cosineAnnealingLR (args.epochs - args.lr_warmup_epochs))
          (t - args.lr_warmup_epochs)) = _
      rw [if_pos ht]
      show (args.lr : ℝ) * ((args.lr_warmup_decay : ℝ) +
          (1 - (args.lr_warmup_decay : ℝ)) *
            ((min t args.lr_warmup_epochs : Nat) : ℝ) /
            (args.lr_warmup_epochs : ℝ)) = _
      rw [Nat.min_eq_left (Nat.le_of_lt ht)]
    · show (if args.lr_warmup_epochs < args.lr_warmup_epochs then
          (args.lr : ℝ) * warmupFactor
            (WarmupSched.linear args.lr_warmup_decay args.lr_warmup_epochs)
            args.lr_warmup_epochs
        else schedValue (args.lr : ℝ)
          (Sched.cosineAnnealingLR (args.epochs - args.lr_warmup_epochs))
          (args.lr_warmup_epochs - args.lr_warmup_epochs)) = _
      rw [if_neg (lt_irrefl _), Nat.sub_self]
      show (args.lr : ℝ) *
          (1 + Real.cos (Real.pi * ((0 : Nat) : ℝ) /
            ((args.epochs - args.lr_warmup_epochs : Nat) : ℝ))) / 2 = _
      norm_num
    · intro t ht
      show (if t < args.lr_warmup_epochs then
          (args.lr : ℝ) * warmupFactor
            (WarmupSched.linear args.lr_warmup_decay args.lr_warmup_epochs) t
        else schedValue (args.lr : ℝ)
          (Sched.cosineAnnealingLR (args.epochs - args.lr_warmup_epochs))
          (t - args.lr_warmup_epochs)) = _
      rw [if_neg (Nat.not_lt.mpr ht)]
      rfl
    · have h1 : ¬ (args.epochs < args.lr_warmup_epochs) := by omega
      show (if args.epochs < args.lr_warmup_epochs then
          (args.lr : ℝ) * warmupFactor
            (WarmupSched.linear args.lr_warmup_decay args.lr_warmup_epochs)
            args.epochs
        else schedValue (args.lr : ℝ)
          (Sched.cosineAnnealingLR (args.epochs - args.lr_warmup_epochs))
          (args.epochs - args.lr_warmup_epochs)) = 0
      rw [if_neg h1]
      exact cosineAnnealing_at_Tmax (args.lr : ℝ)
        (args.epochs - args.lr_warmup_epochs) (by omega)
  · intro hN0
    have hsched : set_lr_scheduler args =
        Except.ok (Sched.cosineAnnealingLR args.epochs) := by
      simp [set_lr_scheduler, hc, hN0,
        Bind.bind, Except.bind, Pure.pure, Except.pure]
    exact ⟨hsched, fun t => rfl,
      cosineAnnealing_at_Tmax (args.lr : ℝ) args.epochs (by omega)⟩

/-- Witness for C5 at `cosaArgs`: the chained scheduler is built, starts at
`lr * lr_warmup_decay`, reaches `lr` at the milestone, and is zero after
`epochs` steps. -/
theorem warmup_cosine_lr_schedule_witness :
    set_lr_scheduler cosaArgs = Except.ok (cosaWarmupSched cosaArgs) ∧
    schedValue (cosaArgs.lr : ℝ) (cosaWarmupSched cosaArgs) 0 =
      (cosaArgs.lr : ℝ) * ((cosaArgs.lr_warmup_decay : ℝ) +
        (1 - (cosaArgs.lr_warmup_decay : ℝ)) * ((0 : Nat) : ℝ) /
          (cosaArgs.lr_warmup_epochs : ℝ)) ∧
    schedValue (cosaArgs.lr : ℝ) (cosaWarmupSched cosaArgs)
      cosaArgs.lr_warmup_epochs = (cosaArgs.lr : ℝ) ∧
    schedValue (cosaArgs.lr : ℝ) (cosaWarmupSched cosaArgs) cosaArgs.epochs = 0 := by
  have h := (warmup_cosine_lr_schedule cosaArgs (by decide) rfl (by decide)).1 (by decide)
  exact ⟨h.1, h.2.1 0 (by decide), h.2.2.1, h.2.2.2.2⟩
